import Mathlib

/-!
Verification development for the cherokeenation RAG chat backend.

The definitions below are shallow embeddings of the Python sources:

* `src/base/app/vector_store.py` — the corpus store (Vertex AI RAG file list
  plus GCS blob bucket) and its upsert and delete operations.
* `src/base/app/main.py` — the webhook handler `update_embedding` and the
  conversation streaming orchestrator `conversation_handler_dev` with its
  inner generator `generate_response_stream`.
* `src/base/app/pii_check.py` — `detect_and_mask_pii`.
* `src/base/app/services.py` — `_generate_history_summary_sync`,
  `extract_and_generate_contact_titles`, `generate_follow_ups_async`.
* `src/base/app/subscriber.py` — `message_processing_callback`.

External effects (model API calls, HTTP fetches, queue deliveries) are
modelled as explicit parameters holding the outcome of the effect; a raised
Python exception is modelled with `Except`/`Option` error values.
-/

namespace CN

/-! ### String helpers shared by the embeddings -/

/-- UTF-8 encoding of one character as its byte values (pure arithmetic
model of the encoder used by Python when percent-encoding a str). -/
def utf8Bytes (c : Char) : List Nat :=
  let n := c.toNat
  if n < 0x80 then [n]
  else if n < 0x800 then
    [0xC0 + n / 64, 0x80 + n % 64]
  else if n < 0x10000 then
    [0xE0 + n / 4096, 0x80 + (n / 64) % 64, 0x80 + n % 64]
  else
    [0xF0 + n / 262144, 0x80 + (n / 4096) % 64, 0x80 + (n / 64) % 64, 0x80 + n % 64]

/-- Bytes kept verbatim by `urllib.parse.quote`: ASCII letters, digits,
and the characters `_`, `.`, `~`, `-`. -/
def isUnreservedByte (b : Nat) : Bool :=
  (65 ≤ b && b ≤ 90) || (97 ≤ b && b ≤ 122) || (48 ≤ b && b ≤ 57)
    || b == 45 || b == 46 || b == 95 || b == 126

/-- Uppercase hexadecimal digit for a value below 16. -/
def hexDigitChar (n : Nat) : Char :=
  if n < 10 then Char.ofNat (48 + n) else Char.ofNat (55 + n)

/-- Percent-encoding of a single byte, `%XX` with uppercase hex. -/
def percentEncodeByte (b : Nat) : String :=
  String.mk ['%', hexDigitChar (b / 16), hexDigitChar (b % 16)]

/-- Embedding of `urllib.parse.quote(url, safe="")` as used by
`vector_store._create_safe_gcs_blob_name`: UTF-8 encode, keep unreserved
bytes, percent-encode the rest. -/
def url_encode (s : String) : String :=
  (s.data.foldr (fun c acc => utf8Bytes c ++ acc) []).foldl
    (fun acc b =>
      if isUnreservedByte b then acc.push (Char.ofNat b) else acc ++ percentEncodeByte b)
    ""

/-! ### Corpus store model (`src/base/app/vector_store.py`)

The externally persisted state is the list of RAG file display names in the
corpus plus the GCS bucket contents, each blob carrying a content type.
`rag.import_files` ingests a GCS object and the resulting RAG file display
name is the GCS object file name (this is the persisted-state layout the
spec records: labels begin with the sha256 hash, split by the bar
character).  The sha256 hex digest itself is kept as an explicit function
parameter `sha256hex`; the code computes `hashlib.sha256(url).hexdigest()`. -/

structure StoreState where
  ragFiles : List String
  blobs : List (String × String)
deriving DecidableEq

def emptyStore : StoreState := ⟨[], []⟩

/-- Embedding of `VectorStore._create_safe_gcs_blob_name`:
`f"\x7bfile_display_name\x7d|\x7bencoded_url\x7d.txt"`. -/
def _create_safe_gcs_blob_name (fileDisplayName documentUrl : String) : String :=
  fileDisplayName ++ "|" ++ url_encode documentUrl ++ ".txt"

/-- The hash part of a display name: Python `display_name.split("|")[0]`,
i.e. the longest prefix before the first bar character. -/
def ragKey (displayName : String) : String :=
  String.mk (displayName.data.takeWhile (fun c => c != '|'))

/-- Embedding of `VectorStore._delete_existing_rag_file`: scan the corpus
file list and delete the first file whose display-name hash part equals the
given hash (the Python loop breaks after the first delete). -/
def _delete_existing_rag_file (hash : String) : List String → List String
  | [] => []
  | f :: fs =>
      if ragKey f = hash then fs else f :: _delete_existing_rag_file hash fs

/-- Embedding of `VectorStore._upload_to_gcs`: `upload_from_string`
overwrites an existing object of the same name (including its content
type), otherwise creates it. -/
def _upload_to_gcs (blobs : List (String × String)) (destinationBlobName contentType : String) :
    List (String × String) :=
  if blobs.any (fun p => p.1 = destinationBlobName) then
    blobs.map (fun p => if p.1 = destinationBlobName then (destinationBlobName, contentType) else p)
  else
    blobs ++ [(destinationBlobName, contentType)]

/-- Embedding of `VectorStore._delete_from_gcs`: delete the blob if it
exists, tolerating absence. -/
def _delete_from_gcs (blobs : List (String × String)) (blobName : String) :
    List (String × String) :=
  blobs.filter (fun p => p.1 ≠ blobName)

/-- Embedding of `VectorStore.delete_document_by_url`: no-op on an empty
url, otherwise delete the first matching RAG file by hash and the
corresponding GCS blob. -/
def delete_document_by_url (sha256hex : String → String) (documentUrl : String)
    (st : StoreState) : StoreState :=
  if documentUrl = "" then st
  else
    let h := sha256hex documentUrl
    let gcsBlobName := _create_safe_gcs_blob_name h documentUrl
    { ragFiles := _delete_existing_rag_file h st.ragFiles,
      blobs := _delete_from_gcs st.blobs gcsBlobName }

/-- Embedding of `VectorStore.upsert_text_content`: skip on empty content,
otherwise delete the existing RAG file for the hash, upload the text blob,
and import it (creating a RAG file named after the blob). -/
def upsert_text_content (sha256hex : String → String) (content documentUrl : String)
    (st : StoreState) : StoreState :=
  if content = "" then st
  else
    let h := sha256hex documentUrl
    let rag1 := _delete_existing_rag_file h st.ragFiles
    let gcsBlobName := _create_safe_gcs_blob_name h documentUrl
    let blobs1 := _upload_to_gcs st.blobs gcsBlobName "text/plain; charset=utf-8"
    { ragFiles := rag1 ++ [gcsBlobName], blobs := blobs1 }

/-- Embedding of `VectorStore.upsert_pdf_with_llm_parser` (renamed, the
source name is not usable here): skip on empty content, delete the existing
RAG file for the hash, upload the raw PDF bytes under the same safe blob
name with content type `application/pdf`, and import it. -/
def upsert_pdf_with_llm (sha256hex : String → String) (pdfContent documentUrl : String)
    (st : StoreState) : StoreState :=
  if pdfContent = "" then st
  else
    let h := sha256hex documentUrl
    let rag1 := _delete_existing_rag_file h st.ragFiles
    let gcsBlobName := _create_safe_gcs_blob_name h documentUrl
    let blobs1 := _upload_to_gcs st.blobs gcsBlobName "application/pdf"
    { ragFiles := rag1 ++ [gcsBlobName], blobs := blobs1 }

/-- Number of live documents in the corpus whose display-name hash part is
the given hash. -/
def countRag (hash : String) (st : StoreState) : Nat :=
  st.ragFiles.countP (fun f => decide (ragKey f = hash))

/-! ### Store lemmas -/

theorem countP_delete_existing (hash : String) (l : List String) :
    (_delete_existing_rag_file hash l).countP (fun f => decide (ragKey f = hash)) =
      l.countP (fun f => decide (ragKey f = hash)) - 1 := by
  induction l with
  | nil => simp [_delete_existing_rag_file]
  | cons f fs ih =>
    by_cases h : ragKey f = hash
    · simp [_delete_existing_rag_file, h, List.countP_cons]
    · unfold _delete_existing_rag_file
      rw [if_neg h]
      simp [List.countP_cons, h, ih]

theorem takeWhile_append_all {p : Char → Bool} {l1 l2 : List Char}
    (h : ∀ c ∈ l1, p c = true) :
    (l1 ++ l2).takeWhile p = l1 ++ l2.takeWhile p := by
  induction l1 with
  | nil => simp
  | cons c cs ih =>
    have hc : p c = true := h c (by simp)
    simp only [List.cons_append, List.takeWhile_cons, hc, if_true]
    rw [ih (fun d hd => h d (by simp [hd]))]

theorem string_data_append (s t : String) : (s ++ t).data = s.data ++ t.data := rfl

theorem ragKey_blob_name (hash url : String) (hbar : ∀ c ∈ hash.data, c ≠ '|') :
    ragKey (_create_safe_gcs_blob_name hash url) = hash := by
  unfold ragKey _create_safe_gcs_blob_name
  have hdata : (hash ++ "|" ++ url_encode url ++ ".txt").data
      = hash.data ++ ('|' :: ((url_encode url).data ++ ".txt".data)) := by
    simp [string_data_append]
  rw [hdata, takeWhile_append_all (p := fun c => c != '|')
      (fun c hc => by simpa using hbar c hc)]
  simp only [List.takeWhile_cons]
  simp only [show (('|' : Char) != '|') = false from rfl]
  simp only [Bool.false_eq_true, if_false]
  cases hash
  simp

theorem countRag_upsert_text (sha256hex : String → String) (content url : String)
    (st : StoreState) (hc : content ≠ "")
    (hbar : ∀ c ∈ (sha256hex url).data, c ≠ '|') :
    countRag (sha256hex url) (upsert_text_content sha256hex content url st) =
      countRag (sha256hex url) st - 1 + 1 := by
  unfold upsert_text_content countRag
  rw [if_neg hc]
  simp only [List.countP_append, countP_delete_existing]
  simp [ragKey_blob_name _ _ hbar]

/-- C3: one upsert against a store holding at most one document for the URL
leaves exactly one; used twice for the idempotence claim. -/
theorem countRag_upsert_text_of_le_one (sha256hex : String → String) (content url : String)
    (st : StoreState) (hc : content ≠ "")
    (hbar : ∀ c ∈ (sha256hex url).data, c ≠ '|')
    (h1 : countRag (sha256hex url) st ≤ 1) :
    countRag (sha256hex url) (upsert_text_content sha256hex content url st) = 1 := by
  rw [countRag_upsert_text sha256hex content url st hc hbar]
  omega

theorem blob_name_mem_upsert_text (sha256hex : String → String) (content url : String)
    (st : StoreState) (hc : content ≠ "") :
    _create_safe_gcs_blob_name (sha256hex url) url ∈
      (upsert_text_content sha256hex content url st).ragFiles := by
  unfold upsert_text_content
  rw [if_neg hc]
  simp

/-- C1 of the store group (claim C3): processing the same upsert task twice
in a row against a store that initially holds at most one document for the
URL leaves exactly one live document, and its label is the hash-prefixed
blob name. -/
theorem upsert_twice_idempotent (sha256hex : String → String) (content url : String)
    (st : StoreState) (hc : content ≠ "")
    (hbar : ∀ c ∈ (sha256hex url).data, c ≠ '|')
    (h1 : countRag (sha256hex url) st ≤ 1) :
    countRag (sha256hex url)
        (upsert_text_content sha256hex content url
          (upsert_text_content sha256hex content url st)) = 1
    ∧ _create_safe_gcs_blob_name (sha256hex url) url ∈
        (upsert_text_content sha256hex content url
          (upsert_text_content sha256hex content url st)).ragFiles := by
  have hfirst := countRag_upsert_text_of_le_one sha256hex content url st hc hbar h1
  refine ⟨?_, blob_name_mem_upsert_text sha256hex content url _ hc⟩
  exact countRag_upsert_text_of_le_one sha256hex content url _ hc hbar (by omega)

theorem upsert_twice_idempotent_witness :
    countRag "aa"
        (upsert_text_content (fun _ => "aa") "hello" "u"
          (upsert_text_content (fun _ => "aa") "hello" "u" emptyStore)) = 1
    ∧ _create_safe_gcs_blob_name "aa" "u" ∈
        (upsert_text_content (fun _ => "aa") "hello" "u"
          (upsert_text_content (fun _ => "aa") "hello" "u" emptyStore)).ragFiles :=
  upsert_twice_idempotent (fun _ => "aa") "hello" "u" emptyStore
    (by decide) (by decide) (by decide)

/-- Claim C5: an upsert immediately followed by a delete for the same URL
leaves zero documents for the hash and no blob under the safe blob name. -/
theorem upsert_then_delete_round_trip (sha256hex : String → String) (content url : String)
    (st : StoreState) (hc : content ≠ "") (hu : url ≠ "")
    (hbar : ∀ c ∈ (sha256hex url).data, c ≠ '|')
    (h1 : countRag (sha256hex url) st ≤ 1) :
    countRag (sha256hex url)
        (delete_document_by_url sha256hex url (upsert_text_content sha256hex content url st)) = 0
    ∧ ∀ p ∈ (delete_document_by_url sha256hex url
          (upsert_text_content sha256hex content url st)).blobs,
        p.1 ≠ _create_safe_gcs_blob_name (sha256hex url) url := by
  have hone := countRag_upsert_text_of_le_one sha256hex content url st hc hbar h1
  constructor
  · unfold delete_document_by_url countRag
    rw [if_neg hu]
    simp only [countP_delete_existing]
    unfold countRag at hone
    omega
  · intro p hp
    unfold delete_document_by_url at hp
    rw [if_neg hu] at hp
    simp only [_delete_from_gcs, List.mem_filter] at hp
    simpa using hp.2

theorem upsert_then_delete_round_trip_witness :
    countRag "aa"
        (delete_document_by_url (fun _ => "aa") "u"
          (upsert_text_content (fun _ => "aa") "hello" "u" emptyStore)) = 0
    ∧ ∀ p ∈ (delete_document_by_url (fun _ => "aa") "u"
          (upsert_text_content (fun _ => "aa") "hello" "u" emptyStore)).blobs,
        p.1 ≠ _create_safe_gcs_blob_name "aa" "u" :=
  upsert_then_delete_round_trip (fun _ => "aa") "hello" "u" emptyStore
    (by decide) (by decide) (by decide) (by decide)

theorem mem_upload_to_gcs (blobs : List (String × String)) (n ct : String) :
    (n, ct) ∈ _upload_to_gcs blobs n ct := by
  unfold _upload_to_gcs
  by_cases h : blobs.any (fun p => p.1 = n)
  · rw [if_pos h]
    simp only [List.any_eq_true, decide_eq_true_eq] at h
    obtain ⟨p, hp, hpn⟩ := h
    exact List.mem_map.mpr ⟨p, hp, by simp [hpn]⟩
  · rw [if_neg h]
    simp

/-- Claim C9 (amended): every stored logical document uses the blob name
`hash ++ "|" ++ url_encode url ++ ".txt"`; text blobs carry content type
`text/plain; charset=utf-8` while PDF blobs carry `application/pdf`, and
both carry the `.txt` suffix; the corpus label begins with the sha256 hash
followed by a bar. -/
theorem blob_name_layout (sha256hex : String → String) (content pdfContent url : String)
    (st : StoreState) (hc : content ≠ "") (hp : pdfContent ≠ "")
    (hbar : ∀ c ∈ (sha256hex url).data, c ≠ '|') :
    _create_safe_gcs_blob_name (sha256hex url) url
      = (sha256hex url ++ "|") ++ (url_encode url ++ ".txt")
    ∧ (∃ stem, _create_safe_gcs_blob_name (sha256hex url) url = stem ++ ".txt")
    ∧ (_create_safe_gcs_blob_name (sha256hex url) url, "text/plain; charset=utf-8") ∈
        (upsert_text_content sha256hex content url st).blobs
    ∧ (_create_safe_gcs_blob_name (sha256hex url) url, "application/pdf") ∈
        (upsert_pdf_with_llm sha256hex pdfContent url st).blobs
    ∧ ragKey (_create_safe_gcs_blob_name (sha256hex url) url) = sha256hex url := by
  refine ⟨?_, ⟨sha256hex url ++ "|" ++ url_encode url, rfl⟩, ?_, ?_, ragKey_blob_name _ _ hbar⟩
  · unfold _create_safe_gcs_blob_name
    apply congrArg String.mk
    simp [string_data_append]
  · unfold upsert_text_content
    rw [if_neg hc]
    exact mem_upload_to_gcs _ _ _
  · unfold upsert_pdf_with_llm
    rw [if_neg hp]
    exact mem_upload_to_gcs _ _ _

theorem blob_name_layout_witness :
    _create_safe_gcs_blob_name "aa" "u" = ("aa" ++ "|") ++ (url_encode "u" ++ ".txt")
    ∧ (∃ stem, _create_safe_gcs_blob_name "aa" "u" = stem ++ ".txt")
    ∧ (_create_safe_gcs_blob_name "aa" "u", "text/plain; charset=utf-8") ∈
        (upsert_text_content (fun _ => "aa") "hello" "u" emptyStore).blobs
    ∧ (_create_safe_gcs_blob_name "aa" "u", "application/pdf") ∈
        (upsert_pdf_with_llm (fun _ => "aa") "pdf" "u" emptyStore).blobs
    ∧ ragKey (_create_safe_gcs_blob_name "aa" "u") = "aa" :=
  blob_name_layout (fun _ => "aa") "hello" "pdf" "u" emptyStore
    (by decide) (by decide) (by decide)

/-- Counterexample for claim C9 as stated: a PDF upsert uploads its blob
with content type `application/pdf`, yet the blob name still ends in
`.txt`, contradicting the no-`.txt`-suffix part of the claim. -/
theorem pdf_blob_txt_suffix_counterexample :
    (upsert_pdf_with_llm (fun _ => "aa") "pdf" "u" emptyStore).blobs
      = [("aa|u.txt", "application/pdf")]
    ∧ "aa|u.txt" = "aa|u" ++ ".txt" := by
  constructor
  · decide
  · rfl

/-! ### Conversation orchestrator (`src/base/app/main.py`, `pii_check.py`,
`services.py`)

Fixed strings from `conversation_handler_dev` and its inner generator. -/

def sentinelA : String := "UNANSWERABLE_QUERY_DUE_TO_INVALID_INPUT"

def sentinelB : String := "UNANSWERABLE_QUERY_DUE_TO_PROMPT_FILTER"

def htmlMsg : String :=
  "It looks like your message had some special symbols or formatting I couldn\x27t interpret. Please try again using simple, plain text."

def piiMsg : String :=
  "To protect your privacy, we cannot process requests that appear to contain personal or sensitive information. Please rephrase your question without including any personal details and try again."

def errMsg : String :=
  "Cherokee Nation Chat is not available right now, please try again later."

/-- One conversation turn, the role plus the text of its first part. -/
structure Turn where
  role : String
  text : String
deriving DecidableEq

/-- The synthetic user turn carrying a history summary. -/
def syntheticTurn (summary : String) : Turn :=
  ⟨"user", "PREVIOUS CONVERSATION SUMMARY: " ++ summary⟩

/-- A compiled PII pattern: its dict label, its `search` test and its
`sub` masking substitution, matching the entries of `PII_PATTERNS`. -/
structure PiiPattern where
  label : String
  search : String → Bool
  maskSub : String → String

/-- Embedding of `pii_check.detect_and_mask_pii`: empty text is clean; if
any pattern matches, report detection and apply every masking
substitution in order; otherwise return the text unchanged. -/
def detect_and_mask_pii (patterns : List PiiPattern) (text : String) : Bool × String :=
  if text = "" then (false, "")
  else if patterns.any (fun p => p.search text) then
    (true, patterns.foldl (fun acc p => p.maskSub acc) text)
  else (false, text)

/-- Word character in the sense of a regex word boundary (ASCII). -/
def isWordChar (c : Char) : Bool := c.isAlphanum || c == '_'

/-- Consume exactly `n` digits, returning the remaining characters. -/
def takeDigits : Nat → List Char → Option (List Char)
  | 0, cs => some cs
  | _ + 1, [] => none
  | n + 1, c :: cs => if c.isDigit then takeDigits n cs else none

/-- Match of the `ssn_usa` pattern `\d\x7b3\x7d-\d\x7b2\x7d-\d\x7b4\x7d`
with a trailing word boundary, starting at the head of the list; returns
the remaining characters after the match. -/
def ssnMatchAt (cs : List Char) : Option (List Char) :=
  match takeDigits 3 cs with
  | some ('-' :: r2) =>
    match takeDigits 2 r2 with
    | some ('-' :: r4) =>
      match takeDigits 4 r4 with
      | some [] => some []
      | some (c :: r5) => if isWordChar c then none else some (c :: r5)
      | none => none
    | _ => none
  | _ => none

/-- Scan for an `ssn_usa` match at any position whose preceding character
is not a word character (the leading word boundary). -/
def ssnSearchAux : Bool → List Char → Bool
  | _, [] => false
  | prevWord, c :: cs =>
    (!prevWord && (ssnMatchAt (c :: cs)).isSome) || ssnSearchAux (isWordChar c) cs

def ssnSearch (s : String) : Bool := ssnSearchAux false s.data

/-- Leftmost non-overlapping substitution of `ssn_usa` matches by the mask
token, with fuel bounded by the text length (each step consumes at least
one character). -/
def ssnSubAux : Nat → Bool → List Char → List Char
  | 0, _, cs => cs
  | _ + 1, _, [] => []
  | fuel + 1, prevWord, c :: cs =>
    if !prevWord then
      match ssnMatchAt (c :: cs) with
      | some rest => "[MASKED_SSN_USA]".data ++ ssnSubAux fuel true rest
      | none => c :: ssnSubAux fuel (isWordChar c) cs
    else c :: ssnSubAux fuel (isWordChar c) cs

def ssnSub (s : String) : String := String.mk (ssnSubAux s.data.length false s.data)

/-- The `ssn_usa` entry of `PII_PATTERNS`. -/
def ssn_usa : PiiPattern := ⟨"ssn_usa", ssnSearch, ssnSub⟩

/-- Inner loop of the HTML regex `<[^>]+>`: after an opening angle
bracket, at least one non-closing character followed by a closing one. -/
def insideTag : List Char → Bool → Bool
  | [], _ => false
  | c :: cs, seen => if c = '>' then seen else insideTag cs true

def htmlSearchAux : List Char → Bool
  | [] => false
  | c :: cs => (decide (c = '<') && insideTag cs false) || htmlSearchAux cs

/-- Embedding of `html_tag_pattern.search` for the regex `<[^>]+>`. -/
def html_tag_search (s : String) : Bool := htmlSearchAux s.data

/-- A character of the content-check class
`[a-zA-Z0-9Ꭰ-᏿ꭰ-ꮿ]` (ASCII alphanumerics plus the two
Cherokee syllabary blocks). -/
def isSearchAlnum (c : Char) : Bool :=
  let n := c.toNat
  (97 ≤ n && n ≤ 122) || (65 ≤ n && n ≤ 90) || (48 ≤ n && n ≤ 57)
    || (0x13A0 ≤ n && n ≤ 0x13FF) || (0xAB70 ≤ n && n ≤ 0xABBF)

/-- Whitespace as matched by the regex class `\s` on a Python str
(common whitespace code points). -/
def pyWhitespace (c : Char) : Bool :=
  let n := c.toNat
  n == 9 || n == 10 || n == 11 || n == 12 || n == 13 || n == 28 || n == 29
    || n == 30 || n == 31 || n == 32 || n == 133 || n == 160

/-- Characters kept by `utils.clean_text`, the complement of
`[^a-zA-Z0-9\s.?-]`. -/
def isCleanKeep (c : Char) : Bool :=
  let n := c.toNat
  (97 ≤ n && n ≤ 122) || (65 ≤ n && n ≤ 90) || (48 ≤ n && n ≤ 57)
    || pyWhitespace c || c == '.' || c == '?' || c == '-'

/-- Embedding of `utils.clean_text`: drop every character outside the
allowed class. -/
def clean_text (message : String) : String :=
  String.mk (message.data.filter isCleanKeep)

/-- Drop leading whitespace characters. -/
def dropLeadingSpace : List Char → List Char
  | [] => []
  | c :: cs => if pyWhitespace c then dropLeadingSpace cs else c :: cs

/-- Python `str.strip()`: remove whitespace from both ends. -/
def pyStrip (s : String) : String :=
  String.mk (dropLeadingSpace ((dropLeadingSpace s.data.reverse).reverse))

/-- Python `str.lower()` (ASCII case folding). -/
def pyLower (s : String) : String :=
  String.mk (s.data.map Char.toLower)

/-- Occurrence of `pat` as a contiguous sublist of `s`. -/
def listContainsSub (s pat : List Char) : Bool :=
  match s with
  | [] => pat.isEmpty
  | _ :: rest => pat.isPrefixOf s || listContainsSub rest pat

/-- Python substring containment `pat in s`. -/
def strContains (s pat : String) : Bool :=
  if pat = "" then true else listContainsSub s.data pat.data

/-- Python `str.startswith(prefix)`. -/
def strStartsWith (s pre : String) : Bool :=
  pre.data.isPrefixOf s.data

/-- Length check of `conversation_handler_dev`: trimmed length below 3 or
raw length above 2048 is replaced by the invalid-input sentinel. -/
def lengthDefault (message : String) : String :=
  if (pyStrip message).length < 3 ∨ 2048 < message.length then sentinelA else message

/-- Content check: a message without any allowed alphanumeric character is
replaced by the invalid-input sentinel. -/
def contentDefault (message : String) : String :=
  if message.data.any isSearchAlnum then message else sentinelA

/-- Prompt-injection keyword scan over the case-normalized cleaned message,
or the literal string `"null"`, replaced by the prompt-filter sentinel. -/
def injectionFilter (keywords : List String) (message : String) : String :=
  if (keywords.any fun k => strContains (clean_text (pyLower message)) k) = true
      ∨ message = "null"
  then sentinelB else message

/-- The full early-rewrite validation pipeline applied to the inbound
message before the stream starts. -/
def validate (keywords : List String) (message : String) : String :=
  injectionFilter keywords (contentDefault (lengthDefault message))

/-- Payload of a named server-sent event. -/
inductive QPayload where
  | emptyObj
  | contact (urls emails phones : List (String × String))
  | follow (questions : List String)
deriving DecidableEq

/-- An item posted to the shared result queue: event name plus payload. -/
abbrev QueueMsg := String × QPayload

/-- A server-sent event of the conversation stream: an unnamed text delta
(with the error flag of the JSON body), the named sources event, or a
named event relayed from the result queue (the terminal done event has
this form as well). -/
inductive Ev where
  | delta (text : String) (isError : Bool)
  | sources (urls : List String)
  | tagged (name : String) (payload : QPayload)
deriving DecidableEq

/-- The terminal event `event: done` with an empty JSON body. -/
def doneEv : Ev := .tagged "done" .emptyObj

def isDoneEv : Ev → Bool
  | .tagged n _ => n == "done"
  | _ => false

/-- A chunk yielded by the Completion Service relay
(`services.generate_primary_response`): a cleaned text piece or the final
ordered source list. -/
inductive Chunk where
  | text (s : String)
  | sources (urls : List String)
deriving DecidableEq

def chunkToEv : Chunk → Ev
  | .text s => .delta s false
  | .sources us => .sources us

def qEvents : Option QueueMsg → List Ev
  | none => []
  | some m => [.tagged m.1 m.2]

/-- Queue slot sanity: a delivered queue item is not named `done`. -/
def qTagOk : Option QueueMsg → Bool
  | none => true
  | some m => m.1 != "done"

/-- The observable outcome of one run of the stream generator: the emitted
event sequence, the Completion Service invocation (message and history
arguments) if it happened, and whether the History Summarizer was
invoked. -/
structure RunResult where
  events : List Ev
  completionCall : Option (String × List Turn)
  summarizerCalled : Bool
deriving DecidableEq

/-- Embedding of `services._generate_history_summary_sync`: empty history
returns the empty summary; otherwise the model call either raises
(`.error`), returns a response without text (whose `.strip()` raises), or
returns text that is stripped.  `apiText` is the outcome of the external
`generate_content` call. -/
def _generate_history_summary_sync (history : List Turn)
    (apiText : Except Unit (Option String)) : Except Unit String :=
  if history.isEmpty then .ok ""
  else
    match apiText with
    | .error _ => .error ()
    | .ok none => .error ()
    | .ok (some t) => .ok (pyStrip t)

/-- Main phase of the generator after validation and summarization: relay
the completion chunks, then (unless an exception was raised by the
completion iteration or when launching the background threads) collect up
to two queue results, each possibly timed out (`none`).  Returns the
events yielded inside the try block and whether an exception escaped. -/
def mainPhase (chunks : List Chunk) (completionRaises fanoutRaises : Bool)
    (q1 q2 : Option QueueMsg) : List Ev × Bool :=
  if completionRaises then (chunks.map chunkToEv, true)
  else if fanoutRaises then (chunks.map chunkToEv, true)
  else (chunks.map chunkToEv ++ qEvents q1 ++ qEvents q2, false)

/-- The try block of the generator: events yielded inside the try, whether
an exception escaped, the Completion Service invocation if any, and
whether the History Summarizer was invoked.  The short-circuits are
checked in source order (HTML tags first, then the precomputed PII flag);
the main path summarizes a non-empty history (a summarizer exception
propagates out of the try block), then invokes the Completion Service. -/
def streamBody (message maskedMessage : String) (piiFound : Bool)
    (history : List Turn) (summaryApi : Except Unit (Option String))
    (chunks : List Chunk) (completionRaises fanoutRaises : Bool)
    (q1 q2 : Option QueueMsg) : List Ev × Bool × Option (String × List Turn) × Bool :=
  if html_tag_search message then ([.delta htmlMsg true], false, none, false)
  else if piiFound then ([.delta piiMsg true], false, none, false)
  else if history.isEmpty then
    let mp := mainPhase chunks completionRaises fanoutRaises q1 q2
    (mp.1, mp.2, some (maskedMessage, history), false)
  else
    match _generate_history_summary_sync history summaryApi with
    | .error _ => ([], true, none, true)
    | .ok summary =>
      let processed := if summary ≠ "" then [syntheticTurn summary] else history
      let mp := mainPhase chunks completionRaises fanoutRaises q1 q2
      (mp.1, mp.2, some (maskedMessage, processed), true)

/-- Embedding of the generator `generate_response_stream` in
`conversation_handler_dev`.  The except clause turns an escaped exception
into one fixed error delta, and the finally clause always appends the
single done event. -/
def generate_response_stream (message maskedMessage : String) (piiFound : Bool)
    (history : List Turn) (summaryApi : Except Unit (Option String))
    (chunks : List Chunk) (completionRaises fanoutRaises : Bool)
    (q1 q2 : Option QueueMsg) : RunResult :=
  let body := streamBody message maskedMessage piiFound history summaryApi chunks
    completionRaises fanoutRaises q1 q2
  { events := body.1 ++ (if body.2.1 then [Ev.delta errMsg true] else []) ++ [doneEv],
    completionCall := body.2.2.1,
    summarizerCalled := body.2.2.2 }

/-- Embedding of the `POST /conversation` handler: a missing or empty
message is rejected with status 400 before any stream starts; otherwise
the validation pipeline rewrites the message, the PII check runs on the
rewritten message, and the response is the stream generator run. -/
def conversation_handler_dev (keywords : List String) (patterns : List PiiPattern)
    (message : String) (history : List Turn) (summaryApi : Except Unit (Option String))
    (chunks : List Chunk) (completionRaises fanoutRaises : Bool)
    (q1 q2 : Option QueueMsg) : Except Nat RunResult :=
  if message = "" then .error 400
  else
    let m3 := validate keywords message
    let pm := detect_and_mask_pii patterns m3
    .ok (generate_response_stream m3 pm.2 pm.1 history summaryApi chunks
          completionRaises fanoutRaises q1 q2)

/-! ### Streaming theorems -/

theorem isDoneEv_chunkToEv (c : Chunk) : isDoneEv (chunkToEv c) = false := by
  cases c <;> simp [chunkToEv, isDoneEv]

theorem countP_done_chunkEvents (chunks : List Chunk) :
    (chunks.map chunkToEv).countP isDoneEv = 0 := by
  rw [List.countP_eq_zero]
  intro e he
  obtain ⟨c, _, rfl⟩ := List.mem_map.mp he
  simp [isDoneEv_chunkToEv c]

theorem countP_done_qEvents (q : Option QueueMsg) (hq : qTagOk q = true) :
    (qEvents q).countP isDoneEv = 0 := by
  cases q with
  | none => simp [qEvents]
  | some m =>
    simp only [qTagOk, bne_iff_ne, ne_eq] at hq
    simp [qEvents, isDoneEv, List.countP_cons, hq]

theorem countP_done_mainPhase (chunks : List Chunk) (cr fr : Bool)
    (q1 q2 : Option QueueMsg) (hq1 : qTagOk q1 = true) (hq2 : qTagOk q2 = true) :
    (mainPhase chunks cr fr q1 q2).1.countP isDoneEv = 0 := by
  unfold mainPhase
  split
  · exact countP_done_chunkEvents chunks
  · split
    · exact countP_done_chunkEvents chunks
    · simp [List.countP_append, countP_done_chunkEvents, isDoneEv_chunkToEv,
        countP_done_qEvents _ hq1, countP_done_qEvents _ hq2]

theorem countP_done_streamBody (message maskedMessage : String) (piiFound : Bool)
    (history : List Turn) (summaryApi : Except Unit (Option String)) (chunks : List Chunk)
    (cr fr : Bool) (q1 q2 : Option QueueMsg)
    (hq1 : qTagOk q1 = true) (hq2 : qTagOk q2 = true) :
    (streamBody message maskedMessage piiFound history summaryApi chunks cr fr q1 q2).1.countP
      isDoneEv = 0 := by
  unfold streamBody
  split
  · simp [isDoneEv]
  · split
    · simp [isDoneEv]
    · split
      · exact countP_done_mainPhase chunks cr fr q1 q2 hq1 hq2
      · split
        · simp
        · exact countP_done_mainPhase chunks cr fr q1 q2 hq1 hq2

theorem terminal_done_shape (X : List Ev) (hX : X.countP isDoneEv = 0) :
    (X ++ [doneEv]).countP isDoneEv = 1 ∧ (X ++ [doneEv]).getLast? = some doneEv := by
  constructor
  · rw [List.countP_append, hX]
    simp [doneEv, isDoneEv, List.countP_cons]
  · exact List.getLast?_concat _

/-- Claim C1: on every code path of the stream generator (main path, PII
short-circuit, HTML short-circuit, raised exception), the event sequence
contains exactly one done event and it is the last event.  The queue
hypotheses record that neither delivered queue item is named `done` (the
two background workers only post `contact_info` and `follow_up` items). -/
theorem stream_single_done (message maskedMessage : String) (piiFound : Bool)
    (history : List Turn) (summaryApi : Except Unit (Option String)) (chunks : List Chunk)
    (cr fr : Bool) (q1 q2 : Option QueueMsg)
    (hq1 : qTagOk q1 = true) (hq2 : qTagOk q2 = true) :
    (generate_response_stream message maskedMessage piiFound history summaryApi chunks
        cr fr q1 q2).events.countP isDoneEv = 1
    ∧ (generate_response_stream message maskedMessage piiFound history summaryApi chunks
        cr fr q1 q2).events.getLast? = some doneEv := by
  have hbody := countP_done_streamBody message maskedMessage piiFound history summaryApi
    chunks cr fr q1 q2 hq1 hq2
  have herr : (if (streamBody message maskedMessage piiFound history summaryApi chunks
      cr fr q1 q2).2.1 then [Ev.delta errMsg true] else []).countP isDoneEv = 0 := by
    split <;> simp [isDoneEv]
  have hX : ((streamBody message maskedMessage piiFound history summaryApi chunks
        cr fr q1 q2).1 ++ (if (streamBody message maskedMessage piiFound history summaryApi
        chunks cr fr q1 q2).2.1 then [Ev.delta errMsg true] else [])).countP isDoneEv = 0 := by
    rw [List.countP_append, hbody, herr]
  exact terminal_done_shape _ hX

theorem stream_single_done_witness :
    qTagOk (some ("contact_info", QPayload.contact [] [] [])) = true
    ∧ qTagOk (some ("follow_up", QPayload.follow [])) = true
    ∧ ((generate_response_stream "Hi" "Hi" false [] (.ok none) [Chunk.text "hello"]
          false false (some ("contact_info", QPayload.contact [] [] []))
          (some ("follow_up", QPayload.follow []))).events.countP isDoneEv = 1
      ∧ (generate_response_stream "Hi" "Hi" false [] (.ok none) [Chunk.text "hello"]
          false false (some ("contact_info", QPayload.contact [] [] []))
          (some ("follow_up", QPayload.follow []))).events.getLast? = some doneEv) :=
  ⟨by decide, by decide,
    stream_single_done "Hi" "Hi" false [] (.ok none) [Chunk.text "hello"] false false
      (some ("contact_info", QPayload.contact [] [] []))
      (some ("follow_up", QPayload.follow [])) (by decide) (by decide)⟩

/-- Claim C2 (amended): for every message for which the PII check flags a
match on the post-sentinel message and which contains no HTML tag, the
Completion Service is never invoked and the stream is exactly the fixed
privacy-refusal delta followed by the done event.  (The HTML check of the
generator runs before the PII branch, so the extra no-HTML hypothesis is
required.) -/
theorem pii_short_circuit (keywords : List String) (patterns : List PiiPattern)
    (message : String) (history : List Turn) (summaryApi : Except Unit (Option String))
    (chunks : List Chunk) (cr fr : Bool) (q1 q2 : Option QueueMsg) (run : RunResult)
    (hpii : (detect_and_mask_pii patterns (validate keywords message)).1 = true)
    (hhtml : html_tag_search (validate keywords message) = false)
    (hrun : conversation_handler_dev keywords patterns message history summaryApi chunks
      cr fr q1 q2 = .ok run) :
    run.events = [Ev.delta piiMsg true, doneEv] ∧ run.completionCall = none := by
  unfold conversation_handler_dev at hrun
  by_cases hm : message = ""
  · rw [if_pos hm] at hrun
    exact absurd hrun (by simp)
  · rw [if_neg hm] at hrun
    have hrun2 : generate_response_stream (validate keywords message)
        (detect_and_mask_pii patterns (validate keywords message)).2
        (detect_and_mask_pii patterns (validate keywords message)).1 history summaryApi
        chunks cr fr q1 q2 = run := by
      exact Except.ok.inj hrun
    rw [← hrun2]
    unfold generate_response_stream streamBody
    rw [hpii, hhtml]
    simp

theorem pii_short_circuit_witness :
    (detect_and_mask_pii [ssn_usa] (validate [] "My SSN is 123-45-6789")).1 = true
    ∧ html_tag_search (validate [] "My SSN is 123-45-6789") = false
    ∧ ((RunResult.mk [Ev.delta piiMsg true, doneEv] none false).events
          = [Ev.delta piiMsg true, doneEv]
      ∧ (RunResult.mk [Ev.delta piiMsg true, doneEv] none false).completionCall = none) :=
  ⟨by decide, by decide,
    pii_short_circuit [] [ssn_usa] "My SSN is 123-45-6789" [] (.ok none) [] false false
      none none (RunResult.mk [Ev.delta piiMsg true, doneEv] none false)
      (by decide) (by decide) rfl⟩

/-- Counterexample for claim C2 as stated: a message containing both PII
and an HTML tag is flagged by the PII check, yet the stream yields the
HTML-formatting delta, not the privacy-refusal delta, because the HTML
check runs first. -/
theorem pii_short_circuit_counterexample :
    (detect_and_mask_pii [ssn_usa] (validate [] "My SSN is 123-45-6789 <b>hi</b>")).1 = true
    ∧ conversation_handler_dev [] [ssn_usa] "My SSN is 123-45-6789 <b>hi</b>" [] (.ok none)
        [] false false none none
      = .ok (RunResult.mk [Ev.delta htmlMsg true, doneEv] none false)
    ∧ Ev.delta htmlMsg true ≠ Ev.delta piiMsg true :=
  ⟨by decide, rfl, by decide⟩

theorem validate_of_invalid_length (keywords : List String) (message : String)
    (hlen : (pyStrip message).length < 3 ∨ 2048 < message.length) :
    validate keywords message = sentinelA ∨ validate keywords message = sentinelB := by
  unfold validate lengthDefault
  rw [if_pos hlen]
  have h2 : contentDefault sentinelA = sentinelA := by
    unfold contentDefault
    rw [if_pos (by decide)]
  rw [h2]
  unfold injectionFilter
  split
  · exact Or.inr rfl
  · exact Or.inl rfl

theorem stream_completionCall_arg (message maskedMessage : String) (piiFound : Bool)
    (history : List Turn) (summaryApi : Except Unit (Option String)) (chunks : List Chunk)
    (cr fr : Bool) (q1 q2 : Option QueueMsg) (arg : String) (hist : List Turn)
    (h : (generate_response_stream message maskedMessage piiFound history summaryApi chunks
        cr fr q1 q2).completionCall = some (arg, hist)) :
    arg = maskedMessage ∧ piiFound = false := by
  unfold generate_response_stream streamBody at h
  by_cases hh : html_tag_search message = true
  · rw [if_pos hh] at h
    simp at h
  · rw [if_neg hh] at h
    by_cases hp : piiFound = true
    · rw [if_pos hp] at h
      simp at h
    · refine ⟨?_, by simpa using hp⟩
      rw [if_neg hp] at h
      by_cases he : history.isEmpty
      · rw [if_pos he] at h
        simp at h
        exact h.1.symm
      · rw [if_neg he] at h
        rcases hsum : _generate_history_summary_sync history summaryApi with e | s
        · rw [hsum] at h
          simp at h
        · rw [hsum] at h
          simp at h
          exact h.1.symm

theorem detect_false_mask (patterns : List PiiPattern) (text : String) (ht : text ≠ "")
    (h : (detect_and_mask_pii patterns text).1 = false) :
    (detect_and_mask_pii patterns text).2 = text := by
  unfold detect_and_mask_pii at h ⊢
  rw [if_neg ht] at h ⊢
  by_cases ha : patterns.any (fun p => p.search text) = true
  · rw [if_pos ha] at h
    simp at h
  · rw [if_neg ha]

/-- Claim C6: for every non-empty message whose trimmed length is below 3
or whose raw length exceeds 2048, the length check substitutes the
invalid-input sentinel, and whenever the Completion Service is invoked for
that request it receives one of the two sentinels, never the original
out-of-bounds message. -/
theorem invalid_length_sentinel (keywords : List String) (patterns : List PiiPattern)
    (message : String) (history : List Turn) (summaryApi : Except Unit (Option String))
    (chunks : List Chunk) (cr fr : Bool) (q1 q2 : Option QueueMsg) (run : RunResult)
    (arg : String) (hist : List Turn)
    (hlen : (pyStrip message).length < 3 ∨ 2048 < message.length)
    (hrun : conversation_handler_dev keywords patterns message history summaryApi chunks
      cr fr q1 q2 = .ok run)
    (harg : run.completionCall = some (arg, hist)) :
    lengthDefault message = sentinelA ∧ (arg = sentinelA ∨ arg = sentinelB)
    ∧ arg ≠ message := by
  have hA : ¬((pyStrip sentinelA).length < 3 ∨ 2048 < sentinelA.length) := by decide
  have hB : ¬((pyStrip sentinelB).length < 3 ∨ 2048 < sentinelB.length) := by decide
  refine ⟨by unfold lengthDefault; rw [if_pos hlen], ?_⟩
  unfold conversation_handler_dev at hrun
  by_cases hm : message = ""
  · rw [if_pos hm] at hrun
    exact absurd hrun (by simp)
  · rw [if_neg hm] at hrun
    have hrun2 : generate_response_stream (validate keywords message)
        (detect_and_mask_pii patterns (validate keywords message)).2
        (detect_and_mask_pii patterns (validate keywords message)).1 history summaryApi
        chunks cr fr q1 q2 = run := Except.ok.inj hrun
    rw [← hrun2] at harg
    obtain ⟨hargeq, hpii⟩ := stream_completionCall_arg _ _ _ _ _ _ _ _ _ _ _ _ harg
    have hval := validate_of_invalid_length keywords message hlen
    have hvne : validate keywords message ≠ "" := by
      rcases hval with hv | hv <;> rw [hv] <;> decide
    have hmask := detect_false_mask patterns (validate keywords message) hvne hpii
    rw [hmask] at hargeq
    subst hargeq
    refine ⟨hval, ?_⟩
    intro hcontra
    rcases hval with hv | hv <;> rw [hcontra] at hv <;> rw [hv] at hlen
    · exact hA hlen
    · exact hB hlen

theorem invalid_length_sentinel_witness :
    ((pyStrip "ab").length < 3 ∨ 2048 < "ab".length)
    ∧ (lengthDefault "ab" = sentinelA ∧ (sentinelA = sentinelA ∨ sentinelA = sentinelB)
      ∧ sentinelA ≠ "ab") :=
  ⟨by decide,
    invalid_length_sentinel [] [] "ab" [] (.ok none) [] false false none none
      (RunResult.mk [doneEv] (some (sentinelA, [])) false) sentinelA []
      (by decide) rfl rfl⟩

/-- History handling the claim C7 describes, written out as a function of
the summarizer outcome: a successful non-empty summary replaces the
history with one synthetic user turn, an empty summary keeps the original
history, and a raised summarizer exception means the Completion Service is
not invoked at all. -/
def c7ExpectedCall (maskedMessage : String) (history : List Turn) :
    Except Unit (Option String) → Option (String × List Turn)
  | .error _ => none
  | .ok none => none
  | .ok (some t) =>
      some (maskedMessage,
        if pyStrip t = "" then history else [syntheticTurn (pyStrip t)])

/-- Claim C7 (amended): on the main path with a non-empty history the
History Summarizer is always invoked synchronously; a successful non-empty
summary replaces the history by one synthetic user turn and an empty
summary keeps the original history, in both cases proceeding to the
Completion Service; but a raised summarizer exception propagates to the
outer handler, which emits the fixed error delta and the done event
without ever invoking the Completion Service. -/
theorem history_summarization (message maskedMessage : String) (history : List Turn)
    (summaryApi : Except Unit (Option String)) (chunks : List Chunk) (cr fr : Bool)
    (q1 q2 : Option QueueMsg) (run : RunResult)
    (hrun : run = generate_response_stream message maskedMessage false history summaryApi
      chunks cr fr q1 q2)
    (hhtml : html_tag_search message = false) (hne : history ≠ []) :
    run.summarizerCalled = true
    ∧ run.completionCall = c7ExpectedCall maskedMessage history summaryApi
    ∧ ((summaryApi = .error () ∨ summaryApi = .ok none) →
        run.completionCall = none ∧ run.events = [Ev.delta errMsg true, doneEv]) := by
  subst hrun
  have hie : history.isEmpty = false := by
    cases history with
    | nil => exact absurd rfl hne
    | cons a as => rfl
  unfold generate_response_stream streamBody
  rw [hhtml]
  simp only [Bool.false_eq_true, if_false, hie]
  rcases summaryApi with e | o
  · simp [_generate_history_summary_sync, hie, c7ExpectedCall]
  · rcases o with _ | t
    · simp [_generate_history_summary_sync, hie, c7ExpectedCall]
    · by_cases hs : pyStrip t = ""
      · simp [_generate_history_summary_sync, hie, c7ExpectedCall, hs]
      · simp [_generate_history_summary_sync, hie, c7ExpectedCall, hs]

theorem history_summarization_witness :
    html_tag_search "Hello" = false
    ∧ [Turn.mk "user" "hi"] ≠ ([] : List Turn)
    ∧ (generate_response_stream "Hello" "Hello" false [Turn.mk "user" "hi"]
        (.ok (some " hi ")) [] false false none none).summarizerCalled = true
    ∧ (generate_response_stream "Hello" "Hello" false [Turn.mk "user" "hi"]
        (.ok (some " hi ")) [] false false none none).completionCall
      = c7ExpectedCall "Hello" [Turn.mk "user" "hi"] (.ok (some " hi ")) :=
  ⟨by decide, by decide,
    (history_summarization "Hello" "Hello" [Turn.mk "user" "hi"] (.ok (some " hi ")) []
      false false none none _ rfl (by decide) (by decide)).1,
    (history_summarization "Hello" "Hello" [Turn.mk "user" "hi"] (.ok (some " hi ")) []
      false false none none _ rfl (by decide) (by decide)).2.1⟩

/-- Counterexample for claim C7 as stated: with a non-empty history and a
summarizer call that raises, the request does not proceed to the
Completion Service; the stream is the fixed error delta plus done. -/
theorem history_summarization_counterexample :
    (generate_response_stream "Hello" "Hello" false [Turn.mk "user" "hi"] (.error ()) []
        false false none none).completionCall = none
    ∧ (generate_response_stream "Hello" "Hello" false [Turn.mk "user" "hi"] (.error ()) []
        false false none none).events = [Ev.delta errMsg true, doneEv] :=
  ⟨rfl, rfl⟩

/-! ### Webhook handler (`update_embedding` in `src/base/app/main.py`) and
ingestion task consumer (`src/base/app/subscriber.py`)

JSON field values are modelled as either a string or a non-string value of
which only the truthiness matters to the code. -/

inductive JScalar where
  | jstr (s : String)
  | jother (truthy : Bool)
deriving DecidableEq

/-- Python truthiness of a field value. -/
def jTruthy : JScalar → Bool
  | .jstr s => decide (s ≠ "")
  | .jother b => b

/-- The `urls` field of a webhook payload: absent (`KeyError`), present but
not a dict (`TypeError` on subscripting), or a dict possibly holding the
`en-us` key. -/
inductive UrlsField where
  | absent
  | notDict
  | dict (enUs : Option JScalar)
deriving DecidableEq

/-- A parsed webhook JSON body, as accessed by `update_embedding`. -/
structure WebhookBody where
  typeField : Option JScalar
  urls : UrlsField
  mediaUrl : Option JScalar
deriving DecidableEq

/-- The message published to the queue: action, url, and the `type` field
carried only for upserts. -/
structure IngestionTask where
  action : String
  url : String
  ctype : Option String
deriving DecidableEq

/-- The observable outcome of the webhook handler: a JSON response with a
status, a published task with status 202, or an uncaught exception
(a truthy non-string url reaching `startswith`). -/
inductive WebhookOut where
  | resp (status : Nat)
  | published (status : Nat) (task : IngestionTask)
  | crash
deriving DecidableEq

/-- The webhook `type` values mapped to a delete task. -/
def deleteTypes : List String :=
  ["content-unpublished", "content-deleted", "media-deleted",
   "content-moving-to-recycle-bin", "content-moved-to-recycle-bin",
   "media-moving-to-recycle-bin", "media-moved-to-recycle-bin"]

/-- Split on a separator character, Python `str.split(sep)`. -/
def splitOnChar (sep : Char) : List Char → List (List Char)
  | [] => [[]]
  | c :: cs =>
    let r := splitOnChar sep cs
    if c = sep then [] :: r
    else
      match r with
      | [] => [[c]]
      | g :: gs => (c :: g) :: gs

/-- The allow-list parsing shared by `update_embedding` (main.py) and the
consumer module (subscriber.py): split the configured string on commas,
strip each piece, keep the non-empty ones. -/
def parsePrefixes (s : String) : List String :=
  ((splitOnChar ',' s.data).map (fun g => pyStrip (String.mk g))).filter
    (fun p => p ≠ "")

/-- URL extraction of `update_embedding` for a classified type string:
types containing `content` read `urls["en-us"]` (KeyError or TypeError
becomes a 400), types containing `media` read `mediaUrl` (KeyError becomes
a 400); otherwise `final_url` keeps its initial empty-string value. -/
def webhook_extract_url (body : WebhookBody) (t : String) : Except Unit JScalar :=
  if strContains t "content" then
    match body.urls with
    | .dict (some v) => .ok v
    | _ => .error ()
  else if strContains t "media" then
    match body.mediaUrl with
    | some v => .ok v
    | none => .error ()
  else .ok (.jstr "")

/-- Embedding of the `POST /update-embedding` handler `update_embedding`:
reject a missing or falsy JSON body (400) and a missing, falsy, non-string
or unknown `type` (400); classify the type into a delete or upsert action;
extract the URL for the type shape (400 on failure); fail closed with 403
when the configured allow-list is empty; 403 when the URL matches no
allowed prefix; otherwise publish the task (202) unless publishing raises
(500). -/
def update_embedding (prefixesStr : String) (payload : Option WebhookBody)
    (publishOk : Bool) : WebhookOut :=
  match payload with
  | none => .resp 400
  | some body =>
    match body.typeField with
    | none => .resp 400
    | some tv =>
      if jTruthy tv = false then .resp 400
      else
        match tv with
        | .jother _ => .resp 400
        | .jstr t =>
          if ¬ (t ∈ deleteTypes ∨ t = "content" ∨ t = "media") then .resp 400
          else
            let action := if t ∈ deleteTypes then "delete" else "upsert"
            match webhook_extract_url body t with
            | .error _ => .resp 400
            | .ok uv =>
              let prefixes := parsePrefixes prefixesStr
              if prefixes.isEmpty then .resp 403
              else
                match uv with
                | .jother _ => .crash
                | .jstr u =>
                  if prefixes.any (fun p => strStartsWith u p) then
                    if publishOk then
                      .published 202
                        ⟨action, u, if action = "upsert" then some t else none⟩
                    else .resp 500
                  else .resp 403

/-- A decoded ingestion task message, as accessed by
`message_processing_callback` via `dict.get`. -/
structure TaskMsg where
  url : Option JScalar
  action : Option JScalar
  ctype : Option JScalar
deriving DecidableEq

inductive AckNack where
  | ack
  | nack
deriving DecidableEq

/-- Embedding of `subscriber.message_processing_callback`: a JSON decode
failure raises and is nacked; a missing or falsy url is acked (discarded);
an empty allow-list nacks the message before any further validation; a
truthy non-string url raises at `startswith` and is nacked; a url outside
the allow-list is acked (discarded); otherwise the delete or upsert side
effects run (`opsOk` is the outcome of those external effects: a raised
exception nacks for retry) and an unknown action is logged and acked. -/
def message_processing_callback (prefixes : List String) (decoded : Option TaskMsg)
    (opsOk : Bool) : AckNack :=
  match decoded with
  | none => .nack
  | some m =>
    match m.url with
    | none => .ack
    | some u =>
      if jTruthy u = false then .ack
      else if prefixes.isEmpty then .nack
      else
        match u with
        | .jother _ => .nack
        | .jstr url =>
          if ¬ prefixes.any (fun p => strStartsWith url p) then .ack
          else
            match m.action.getD (.jstr "upsert") with
            | .jstr "delete" => if opsOk then .ack else .nack
            | .jstr "upsert" => if opsOk then .ack else .nack
            | _ => .ack

/-- Claim C4 (amended): with an empty allow-list the webhook handler never
publishes any task and answers 403 to every structurally valid request (a
recognized type whose URL extraction succeeds), and the consumer
negative-acknowledges every task that carries a truthy url; a task without
a url is discarded with an Ack, so no URL is ever silently accepted. -/
theorem allow_list_fail_closed (prefixesStr : String) (body : WebhookBody)
    (publishOk : Bool) (decoded : Option TaskMsg) (opsOk : Bool)
    (hempty : parsePrefixes prefixesStr = []) :
    (∀ st task, update_embedding prefixesStr (some body) publishOk ≠ .published st task)
    ∧ (∀ t u, body.typeField = some (.jstr t)
        → (t ∈ deleteTypes ∨ t = "content" ∨ t = "media")
        → webhook_extract_url body t = .ok u
        → update_embedding prefixesStr (some body) publishOk = .resp 403)
    ∧ (∀ m u, decoded = some m → m.url = some u → jTruthy u = true
        → message_processing_callback [] decoded opsOk = .nack) := by
  have hempty2 : (parsePrefixes prefixesStr).isEmpty = true := by
    rw [hempty]
    rfl
  refine ⟨?_, ?_, ?_⟩
  · intro st task hcontra
    simp only [update_embedding] at hcontra
    repeat' split at hcontra
    all_goals simp_all
  · intro t u htype hknown hurl
    have htne : t ≠ "" := by
      rcases hknown with h | h | h
      · intro hc
        rw [hc] at h
        simp [deleteTypes] at h
      · intro hc
        rw [hc] at h
        exact absurd h.symm (by decide)
      · intro hc
        rw [hc] at h
        exact absurd h.symm (by decide)
    have hj : jTruthy (.jstr t) = true := by
      simp [jTruthy, htne]
    simp only [update_embedding]
    repeat' split
    all_goals simp_all
  · intro m u hdec hurl htruthy
    simp only [message_processing_callback]
    repeat' split
    all_goals simp_all

theorem allow_list_fail_closed_witness :
    parsePrefixes "" = []
    ∧ update_embedding "" (some ⟨some (.jstr "content"), .dict (some (.jstr "https://a/p")),
        none⟩) true = .resp 403
    ∧ message_processing_callback []
        (some ⟨some (.jstr "https://a/p"), some (.jstr "delete"), none⟩) true = .nack :=
  ⟨by decide,
    (allow_list_fail_closed "" ⟨some (.jstr "content"), .dict (some (.jstr "https://a/p")),
        none⟩ true none true (by decide)).2.1 "content" (.jstr "https://a/p") rfl
      (by decide) rfl,
    (allow_list_fail_closed ""
        ⟨some (.jstr "content"), .dict (some (.jstr "https://a/p")), none⟩ true
        (some ⟨some (.jstr "https://a/p"), some (.jstr "delete"), none⟩) true
        (by decide)).2.2 ⟨some (.jstr "https://a/p"), some (.jstr "delete"), none⟩
      (.jstr "https://a/p") rfl rfl (by decide)⟩

/-- Counterexample for claim C4 as stated: with an empty allow-list a task
that lacks a url is acknowledged (discarded) before the allow-list check,
so the consumer does not Nack every task. -/
theorem allow_list_fail_closed_counterexample :
    message_processing_callback [] (some ⟨none, some (.jstr "delete"), none⟩) true
      = AckNack.ack
    ∧ AckNack.ack ≠ AckNack.nack :=
  ⟨rfl, by decide⟩

/-- Claim C8 (amended): the webhook handler maps a fixed enumerated set of
exactly seven `type` values to a delete task and `content`/`media` to an
upsert task, and responds 400 for any other, missing, falsy or non-string
`type` value. -/
theorem update_embedding_type_map (prefixesStr : String) (body : WebhookBody)
    (publishOk : Bool) :
    deleteTypes.length = 7
    ∧ (∀ t st task, body.typeField = some (.jstr t)
        → update_embedding prefixesStr (some body) publishOk = .published st task
        → task.action = (if t ∈ deleteTypes then "delete" else "upsert"))
    ∧ (∀ t, body.typeField = some (.jstr t) → t ∉ deleteTypes → t ≠ "content"
        → t ≠ "media"
        → update_embedding prefixesStr (some body) publishOk = .resp 400)
    ∧ (body.typeField = none
        → update_embedding prefixesStr (some body) publishOk = .resp 400)
    ∧ (∀ b, body.typeField = some (.jother b)
        → update_embedding prefixesStr (some body) publishOk = .resp 400) := by
  refine ⟨rfl, ?_, ?_, ?_, ?_⟩
  · intro t st task htype hpub
    simp only [update_embedding] at hpub
    repeat' split at hpub
    all_goals simp_all
    all_goals rw [← hpub.2]
  · intro t htype h1 h2 h3
    simp only [update_embedding]
    repeat' split
    all_goals simp_all
  · intro htype
    simp only [update_embedding]
    repeat' split
    all_goals simp_all
  · intro b htype
    simp only [update_embedding]
    repeat' split
    all_goals simp_all

theorem update_embedding_type_map_witness :
    IngestionTask.action ⟨"delete", "https://a/p", none⟩
      = (if "content-deleted" ∈ deleteTypes then "delete" else "upsert")
    ∧ deleteTypes.length = 7 :=
  ⟨(update_embedding_type_map "https://a"
      ⟨some (.jstr "content-deleted"), .dict (some (.jstr "https://a/p")), none⟩
      true).2.1 "content-deleted" 202 ⟨"delete", "https://a/p", none⟩ rfl (by decide),
   (update_embedding_type_map "https://a"
      ⟨some (.jstr "content-deleted"), .dict (some (.jstr "https://a/p")), none⟩
      true).1⟩

/-- Counterexample for claim C8 as stated: the enumerated delete set holds
seven values, not eight, and a natural candidate for an eighth value
(`media-unpublished`) is rejected with a 400. -/
theorem update_embedding_type_map_counterexample :
    deleteTypes.length = 7
    ∧ (7 : Nat) ≠ 8
    ∧ update_embedding "https://a" (some ⟨some (.jstr "media-unpublished"), .absent, none⟩)
        true = .resp 400 :=
  ⟨rfl, by decide, by decide⟩

/-! ### Background workers (`src/base/app/services.py`)

Each worker runs on its own thread and communicates only by putting items
on the shared result queue.  The outcome of the regex extraction
(`utils.find_contacts_with_regex`, which can raise) and of the model calls
are explicit parameters. -/

/-- The contacts found by `find_contacts_with_regex`: deduplicated capped
lists of urls, emails and phone numbers. -/
structure Contacts where
  urls : List String
  emails : List String
  phones : List String
deriving DecidableEq

/-- Python string `<` (lexicographic by code point), as a Bool. -/
def strLeb (a b : String) : Bool := decide (a < b) || a == b

def insertSorted (x : String) : List String → List String
  | [] => [x]
  | y :: ys => if strLeb x y then x :: y :: ys else y :: insertSorted x ys

/-- Python `sorted` over strings. -/
def sortStr (l : List String) : List String := l.foldr insertSorted []

/-- Python `str.title()`: capitalize the first letter of each alphabetic
run, lowercase the rest. -/
def pyTitleAux : Bool → List Char → List Char
  | _, [] => []
  | prevCased, c :: cs =>
    let cased := c.isAlpha
    let c2 := if cased && !prevCased then c.toUpper
      else if cased then c.toLower else c
    c2 :: pyTitleAux cased cs

def pyTitle (s : String) : String := String.mk (pyTitleAux false s.data)

/-- Python `dict.get(key, default)` for a string-to-string mapping. -/
def mapGet (m : List (String × String)) (k dflt : String) : String :=
  ((m.find? (fun p => p.1 == k)).map Prod.snd).getD dflt

/-- The default title of an email contact:
`f"Email \x7bemail.split('@')[0].replace('.', ' ').title()\x7d"`. -/
def defaultEmailTitle (email : String) : String :=
  "Email " ++ pyTitle (String.mk (((email.data.reverse.foldl
    (fun acc c => c :: acc) []).takeWhile (fun c => c != '@')).map
      (fun c => if c = '.' then ' ' else c)))

/-- Embedding of `services.extract_and_generate_contact_titles`:
`findOutcome` is the result of `find_contacts_with_regex` (`.error` models
a raised exception anywhere in the try block, which the handler converts
into the empty-contacts result), `titleMap` is the mapping returned by
`_generate_titles_for_contacts_batch` (that helper catches all its own
errors and returns an empty mapping).  Exactly one `contact_info` item is
put on the queue on every path. -/
def extract_and_generate_contact_titles (findOutcome : Except Unit Contacts)
    (titleMap : List (String × String)) : List QueueMsg :=
  match findOutcome with
  | .error _ => [("contact_info", QPayload.contact [] [] [])]
  | .ok found =>
    if found.urls.isEmpty && found.emails.isEmpty && found.phones.isEmpty then
      [("contact_info", QPayload.contact [] [] [])]
    else
      let urls := (sortStr found.urls).map
        (fun u => (u, mapGet titleMap u "Visit Link"))
      let emails := (sortStr found.emails).map
        (fun e => (e, mapGet titleMap e (defaultEmailTitle e)))
      let phones := (sortStr found.phones).map
        (fun p => (p, mapGet titleMap p ("Call " ++ p)))
      [("contact_info", QPayload.contact urls emails phones)]

/-- The parsed value returned by `utils.parse_json_from_markdown` on the
follow-up model response, as accessed by `generate_follow_ups_async`. -/
inductive FollowVal where
  | list (qs : List String)
  | notList
deriving DecidableEq

inductive FollowParsed where
  | notDict
  | dict (questions : Option FollowVal)
deriving DecidableEq

/-- Outcome of the follow-up model call plus JSON parsing: the call raised
`json.JSONDecodeError`, raised any other exception, or returned text whose
parse result is `None` (the subsequent attribute access raises) or a
parsed value. -/
inductive FollowUpApi where
  | raisedJsonDecode
  | raisedOther
  | ok (parsed : Option FollowParsed)
deriving DecidableEq

/-- Embedding of `services.generate_follow_ups_async`: every failure path
(either except clause, a `None` parse, a non-dict parse, a missing or
non-list `questions` field) puts the empty follow-up result; a parsed list
is put as-is.  Exactly one `follow_up` item is put on every path. -/
def generate_follow_ups_async : FollowUpApi → List QueueMsg
  | .raisedJsonDecode => [("follow_up", .follow [])]
  | .raisedOther => [("follow_up", .follow [])]
  | .ok none => [("follow_up", .follow [])]
  | .ok (some .notDict) => [("follow_up", .follow [])]
  | .ok (some (.dict none)) => [("follow_up", .follow [])]
  | .ok (some (.dict (some .notList))) => [("follow_up", .follow [])]
  | .ok (some (.dict (some (.list qs)))) => [("follow_up", .follow qs)]

/-- Claim C10: each background worker posts exactly one result to the
shared queue on every code path including every exception path, tagged
`contact_info` or `follow_up` respectively; the contact result is always a
contact payload holding urls, emails and phones lists, the follow-up
result always a follow-up payload holding a question list; both are empty
on any failure, and neither worker raises to its caller (both embeddings
are total functions of their outcome parameters). -/
theorem workers_single_result (findOutcome : Except Unit Contacts)
    (titleMap : List (String × String)) (api : FollowUpApi) :
    (extract_and_generate_contact_titles findOutcome titleMap).length = 1
    ∧ (∀ m ∈ extract_and_generate_contact_titles findOutcome titleMap,
        m.1 = "contact_info" ∧ ∃ u e p, m.2 = QPayload.contact u e p)
    ∧ (generate_follow_ups_async api).length = 1
    ∧ (∀ m ∈ generate_follow_ups_async api,
        m.1 = "follow_up" ∧ ∃ qs, m.2 = QPayload.follow qs)
    ∧ (findOutcome = .error () →
        extract_and_generate_contact_titles findOutcome titleMap
          = [("contact_info", QPayload.contact [] [] [])])
    ∧ (api = .raisedOther →
        generate_follow_ups_async api = [("follow_up", QPayload.follow [])])
    ∧ (∀ qs, generate_follow_ups_async api = [("follow_up", QPayload.follow qs)]
        → qs ≠ [] → api = .ok (some (.dict (some (.list qs))))) := by
  refine ⟨?_, ?_, ?_, ?_, ?_, ?_, ?_⟩
  · rcases findOutcome with e | found
    · rfl
    · simp only [extract_and_generate_contact_titles]
      split <;> rfl
  · intro m hm
    rcases findOutcome with e | found
    · simp [extract_and_generate_contact_titles] at hm
      rw [hm]
      exact ⟨rfl, [], [], [], rfl⟩
    · simp only [extract_and_generate_contact_titles] at hm
      split at hm <;> simp at hm <;> rw [hm]
      · exact ⟨rfl, [], [], [], rfl⟩
      · exact ⟨rfl, _, _, _, rfl⟩
  · rcases api with _ | _ | p
    · rfl
    · rfl
    · rcases p with _ | fp
      · rfl
      · rcases fp with _ | q
        · rfl
        · rcases q with _ | v
          · rfl
          · rcases v with qs | _ <;> rfl
  · intro m hm
    rcases api with _ | _ | p
    · simp [generate_follow_ups_async] at hm
      rw [hm]
      exact ⟨rfl, [], rfl⟩
    · simp [generate_follow_ups_async] at hm
      rw [hm]
      exact ⟨rfl, [], rfl⟩
    · rcases p with _ | fp
      · simp [generate_follow_ups_async] at hm
        rw [hm]
        exact ⟨rfl, [], rfl⟩
      · rcases fp with _ | q
        · simp [generate_follow_ups_async] at hm
          rw [hm]
          exact ⟨rfl, [], rfl⟩
        · rcases q with _ | v
          · simp [generate_follow_ups_async] at hm
            rw [hm]
            exact ⟨rfl, [], rfl⟩
          · rcases v with qs | _
            · simp [generate_follow_ups_async] at hm
              rw [hm]
              exact ⟨rfl, qs, rfl⟩
            · simp [generate_follow_ups_async] at hm
              rw [hm]
              exact ⟨rfl, [], rfl⟩
  · intro h
    rw [h]
    rfl
  · intro h
    rw [h]
    rfl
  · intro qs hq hqs
    rcases api with _ | _ | p
    · simp [generate_follow_ups_async] at hq
      exact absurd hq hqs
    · simp [generate_follow_ups_async] at hq
      exact absurd hq hqs
    · rcases p with _ | fp
      · simp [generate_follow_ups_async] at hq
        exact absurd hq hqs
      · rcases fp with _ | q
        · simp [generate_follow_ups_async] at hq
          exact absurd hq hqs
        · rcases q with _ | v
          · simp [generate_follow_ups_async] at hq
            exact absurd hq hqs
          · rcases v with qs2 | _
            · simp [generate_follow_ups_async] at hq
              rw [hq]
            · simp [generate_follow_ups_async] at hq
              exact absurd hq hqs

theorem workers_single_result_witness :
    (extract_and_generate_contact_titles (.error ()) []).length = 1
    ∧ (generate_follow_ups_async .raisedOther).length = 1
    ∧ extract_and_generate_contact_titles (.error ()) []
        = [("contact_info", QPayload.contact [] [] [])]
    ∧ generate_follow_ups_async .raisedOther = [("follow_up", QPayload.follow [])] :=
  ⟨(workers_single_result (.error ()) [] .raisedOther).1,
   (workers_single_result (.error ()) [] .raisedOther).2.2.1,
   (workers_single_result (.error ()) [] .raisedOther).2.2.2.2.1 rfl,
   (workers_single_result (.error ()) [] .raisedOther).2.2.2.2.2.1 rfl⟩

end CN
